import Mathlib

/-!
# A formal model of `parse.py`

A shallow embedding of the Metasys parsing-and-summarization script.

* Machine floats are modelled as rationals (`ℚ`); the missing-value
  marker `np.nan` is modelled as `none` in `Option ℚ`.
* Timestamps are modelled as integers (seconds since an arbitrary epoch,
  midnight-aligned); a calendar date is the integer day index `t / 86400`
  (Lean's `/` on `ℤ` is Euclidean division, which agrees with Python's
  floor division for the positive divisor 86400).
* The pandas data frame of measurements is modelled as a list of rows;
  each row carries its timestamp and the values of the 7 fixed meter
  columns (`Fin 7 → Option ℚ`).
-/

/-! ## Value Normalizer: `drop_units` (parse.py lines 49-57)

The regex is `\A(\d*\.?\d+) ?[a-zA-Z]*\Z`.  `isDigitChar` embeds the
character class `\d` (ASCII digits, code points 48-57) and `isAlphaChar`
embeds `[a-zA-Z]` (code points 97-122 and 65-90). -/

def isDigitChar (c : Char) : Bool :=
  decide (48 ≤ c.toNat ∧ c.toNat ≤ 57)

def isAlphaChar (c : Char) : Bool :=
  decide ((97 ≤ c.toNat ∧ c.toNat ≤ 122) ∨ (65 ≤ c.toNat ∧ c.toNat ≤ 90))

/-- Value of a digit string, most significant digit first. -/
def digitsToNat (l : List Char) : ℕ :=
  l.foldl (fun n c => 10 * n + (c.toNat - 48)) 0

/-- The tail of the regex after the captured number: ` ?[a-zA-Z]*`,
an optional single space followed by letters only. -/
def unitsTail : List Char → Bool
  | [] => true
  | c :: r => if c = ' ' then r.all isAlphaChar else (c :: r).all isAlphaChar

/-- `drop_units` (parse.py lines 49-57): remove the units from a string,
e.g. `"309.2 kWh"` becomes the number `309.2`.  Matches the anchored regex
`\A(\d*\.?\d+) ?[a-zA-Z]*\Z` against the whole string; on success returns
`float(group 1)` (here: the exact rational value), otherwise `np.nan`
(here: `none`).  The function is total: malformed input yields `none`,
it never raises. -/
def drop_units (s : String) : Option ℚ :=
  let cs := s.toList
  let ip := cs.takeWhile isDigitChar
  match cs.dropWhile isDigitChar with
  | [] => if ip = [] then none else if unitsTail [] then some ((digitsToNat ip : ℚ)) else none
  | c :: r2 =>
    if c = '.' then
      let fp := r2.takeWhile isDigitChar
      if fp = [] then none
      else if unitsTail (r2.dropWhile isDigitChar) then
        some ((digitsToNat ip : ℚ) + (digitsToNat fp : ℚ) / (10 : ℚ) ^ fp.length)
      else none
    else if ip = [] then none
    else if unitsTail (c :: r2) then some ((digitsToNat ip : ℚ)) else none

/-- Declarative reading of the number part `\d*\.?\d+` of the regex:
either a nonempty digit string, or digits, a dot, and then at least one
digit. -/
def NumLang (n : List Char) : Prop :=
  (n ≠ [] ∧ n.all isDigitChar = true) ∨
    ∃ a b, n = a ++ '.' :: b ∧ a.all isDigitChar = true ∧ b ≠ [] ∧ b.all isDigitChar = true

/-- Declarative reading of the trailing part ` ?[a-zA-Z]*` of the regex. -/
def TailLang (t : List Char) : Prop :=
  t.all isAlphaChar = true ∨ ∃ r, t = ' ' :: r ∧ r.all isAlphaChar = true

/-- Declarative reading of the whole anchored regex
`\A(\d*\.?\d+) ?[a-zA-Z]*\Z`. -/
def UnitsLang (cs : List Char) : Prop :=
  ∃ n t, cs = n ++ t ∧ NumLang n ∧ TailLang t

/-! ## Day Bucketer: `group_key` (parse.py lines 93-112) -/

/-- A `datetime.time` value as produced by `_string_to_time`
(parse.py lines 115-120); `datetime.time` validates its fields. -/
structure Time where
  hour : ℕ
  minute : ℕ
  hour_lt : hour < 24 := by decide
  minute_lt : minute < 60 := by decide

/-- `_timedelta_since_midnight` (parse.py lines 111-112), in seconds. -/
def _timedelta_since_midnight (t : Time) : ℤ :=
  3600 * (t.hour : ℤ) + 60 * (t.minute : ℤ)

/-- The `.date` of a timestamp: its integer day index (floor division,
as for Python naive datetimes). -/
def dateOf (t : ℤ) : ℤ := t / 86400

/-- The time-of-day of a timestamp, in seconds since midnight. -/
def timeOfDay (t : ℤ) : ℤ := t % 86400

/-- `group_key` (parse.py lines 93-108): the grouping key (a calendar
date) for one timestamp.  In the branch where `end_time` is given but
`start_time` is not, the Python code would crash dereferencing
`None.hour`; this is modelled as `none` (the branch is unreachable from
`summarize`, whose guard rejects that configuration first). -/
def group_key (t : ℤ) (start_time end_time : Option Time) : Option ℤ :=
  match start_time, end_time with
  | none, none => some (dateOf t)
  | some s, none => some (dateOf (t - _timedelta_since_midnight s))
  | some s, some e =>
    if _timedelta_since_midnight s < _timedelta_since_midnight e then
      some (dateOf t)
    else
      some (dateOf (t - (_timedelta_since_midnight s + _timedelta_since_midnight e) / 2))
  | none, some _ => none

/-! ## Table Builder: deduplication in `parse` (parse.py lines 18-24)

A raw record of the export file is a triple
(timestamp string, variable-name string, value string); the `Object Value`
column is passed through the converter `drop_units` while reading. -/

/-- Whether a raw record carries the given (timestamp, variable name)
composite key. -/
def matchKey (k : String × String) (r : String × String × String) : Bool :=
  decide (r.1 = k.1) && decide (r.2.1 = k.2)

/-- The value the Measurement Table retains for one (timestamp, variable)
key: the records with that key, in file order, have their values read
through `drop_units`, and `groupby(df.index).last()` (parse.py line 23)
keeps the **last non-null** entry of each group (`GroupBy.last` skips
nulls); the result is null only when every entry is null. -/
def dedupValue (records : List (String × String × String)) (k : String × String) : Option ℚ :=
  ((records.filter (matchKey k)).filterMap (fun r => drop_units r.2.2)).getLast?

/-! ## Table Builder: timestamp parsing and row order (parse.py lines 23, 27, 33) -/

/-- Split a character list on a separator character. -/
def splitOnChar (sep : Char) : List Char → List (List Char)
  | [] => [[]]
  | c :: cs =>
    let r := splitOnChar sep cs
    if c = sep then [] :: r
    else
      match r with
      | [] => [[c]]
      | h :: t => (c :: h) :: t

/-- Parse a nonempty all-digit string as a natural number. -/
def natOfDigits? (l : List Char) : Option ℕ :=
  if l ≠ [] ∧ l.all isDigitChar = true then some (digitsToNat l) else none

/-- A parsed date-and-time value. -/
structure Dt where
  year : ℕ
  month : ℕ
  day : ℕ
  hour : ℕ
  minute : ℕ
  deriving DecidableEq

/-- Modelled from the library call `pd.to_datetime(index, dayfirst=True)`
(parse.py line 33) on timestamp strings of the shape `DD/MM/YYYY HH:MM`:
with `dayfirst=True`, the first numeric field of an ambiguous date is the
day of the month, the second the month. -/
def parseTimestamp (s : String) : Option Dt :=
  match splitOnChar ' ' s.toList with
  | [ds, ts] =>
    match splitOnChar '/' ds, splitOnChar ':' ts with
    | [f1, f2, f3], [f4, f5] =>
      match natOfDigits? f1, natOfDigits? f2, natOfDigits? f3, natOfDigits? f4, natOfDigits? f5 with
      | some d, some mo, some y, some h, some mi =>
        if 1 ≤ d ∧ d ≤ 31 ∧ 1 ≤ mo ∧ mo ≤ 12 ∧ h < 24 ∧ mi < 60 then
          some ⟨y, mo, d, h, mi⟩
        else none
      | _, _, _, _, _ => none
    | _, _ => none
  | _ => none

/-- Chronological rank of a parsed date-and-time (strictly monotone in
calendar order, since month < 13, day < 32, hour < 24, minute < 60). -/
def dtKey (d : Dt) : ℕ :=
  (((d.year * 13 + d.month) * 32 + d.day) * 24 + d.hour) * 60 + d.minute

/-- Lexicographic comparison of character lists by code point — the
comparison Python's `sorted` applies to strings. -/
def listLE : List Char → List Char → Bool
  | [], _ => true
  | _ :: _, [] => false
  | a :: as, b :: bs =>
    if a.toNat < b.toNat then true
    else if b.toNat < a.toNat then false
    else listLE as bs

/-- Lexicographic order on strings by code point. -/
def strLE (a b : String) : Bool := listLE a.toList b.toList

/-- Ascending lexicographic sort of strings, as applied to the index
timestamp strings by `groupby(...)` with its default `sort=True`
(parse.py line 23). -/
def sortStrings (l : List String) : List String :=
  l.insertionSort (fun a b => strLE a b = true)

/-- The row index produced by `parse` (parse.py lines 23-33): the unique
timestamp strings, in ascending lexicographic string order (from the
sorting `groupby`), each then converted by `to_datetime(dayfirst=True)` —
with no re-sorting after the conversion. -/
def parseIndex (tss : List String) : List Dt :=
  (sortStrings tss.dedup).filterMap parseTimestamp

/-! ## Summarizer: `summarize` (parse.py lines 60-90)

The selection of the 7 fixed meter columns (`df[summary_columns]`,
parse.py line 77) is embedded by giving each measurement row the 7 meter
values directly, indexed by `Fin 7` in the fixed order
Main, DHB, M1, DG, DE-ATS, Collins, DL. -/

/-- The fixed meter column names (parse.py lines 67-75). -/
def summary_columns : List String :=
  ["MAIN ELECTRIC METER.Analog Inputs.Energy.Main-kWh-Energy (Trend1)",
   "PANEL DHB ELECTRIC METER.Analog Inputs.Energy.DHB - kWh Total (Trend1)",
   "PANEL M1 ELECTRIC METER.Analog Inputs.Energy.M1-kWh-Energy (Trend1)",
   "PANEL DG ELECTRIC METER.Analog Inputs.Energy.DG-kWh-Energy (Trend1)",
   "PANEL DE-ATS ELECTRIC METER.Analog Inputs.Energy.DE-ATS-Energy-kWh (Trend1)",
   "PANEL COLLINS ELECTRIC METER.Analog Inputs.Energy.CollinCtr-Energy-kWh (Trend1)",
   "PANEL DL ELECTRIC METER.Analog Inputs.Energy.DL-Energy-kWh (Trend1)"]

/-- The fixed meter labels (parse.py line 76). -/
def summary_labels : List String :=
  ["Main", "DHB", "M1", "DG", "DE-ATS", "Collins", "DL"]

/-- One row of the Measurement Table restricted to the 7 meter columns:
a timestamp and the 7 cell values (missing cells are `none`). -/
structure Row where
  ts : ℤ
  vals : Fin 7 → Option ℚ

/-- One cell of `subset.replace(to_replace=0, value=np.nan)`
(parse.py line 80): a reading equal to exactly 0 becomes missing. -/
def replaceZero (v : Option ℚ) : Option ℚ :=
  match v with
  | some q => if q = 0 then none else some q
  | none => none

/-- `replace(to_replace=0, value=np.nan)` applied to a whole row. -/
def replaceZeroRow (r : Row) : Row :=
  ⟨r.ts, fun i => replaceZero (r.vals i)⟩

/-- Modelled from the library call
`df.index.indexer_between_time(start_time, end_time)` (parse.py line 65)
with its default `include_start=True, include_end=True`: a time-of-day
is selected when it lies in the closed interval `[start, end]` if
`start <= end`, and in the wrap-around union otherwise. -/
def between_time (s e : Time) (tod : ℤ) : Bool :=
  if _timedelta_since_midnight s ≤ _timedelta_since_midnight e then
    decide (_timedelta_since_midnight s ≤ tod) && decide (tod ≤ _timedelta_since_midnight e)
  else
    decide (_timedelta_since_midnight s ≤ tod) || decide (tod ≤ _timedelta_since_midnight e)

/-- The row filtering of `summarize` (parse.py lines 64-65): only when
both `start_time` and `end_time` are given, restrict to the rows whose
time-of-day `indexer_between_time` selects. -/
def filtered_df (df : List Row) (start_time end_time : Option Time) : List Row :=
  match start_time, end_time with
  | some s, some e => df.filter (fun r => between_time s e (timeOfDay r.ts))
  | _, _ => df

/-- The frame `subset` of `summarize` after column selection and zero
replacement (parse.py lines 77-80), applied after the optional
time-of-day filtering. -/
def subset_df (df : List Row) (start_time end_time : Option Time) : List Row :=
  (filtered_df df start_time end_time).map replaceZeroRow

/-- The rows of one group of `subset.groupby(group_key(...))`
(parse.py line 82): the rows whose grouping key equals `d`. -/
def rows_of_date (df : List Row) (start_time end_time : Option Time) (d : Option ℤ) : List Row :=
  df.filter (fun r => group_key r.ts start_time end_time = d)

/-- Order on grouping keys, for the sorted group keys of `groupby`. -/
def keyLE (a b : Option ℤ) : Bool :=
  match a, b with
  | none, _ => true
  | some _, none => false
  | some x, some y => decide (x ≤ y)

/-- The distinct grouping keys of `subset.groupby(group_key(...))`, in
ascending order (`groupby` sorts its group keys). -/
def group_dates (df : List Row) (start_time end_time : Option Time) : List (Option ℤ) :=
  ((df.map (fun r => group_key r.ts start_time end_time)).dedup).insertionSort
    (fun a b => keyLE a b = true)

/-- `grouped_cumulative_energy.max() - grouped_cumulative_energy.min()`
for one group and one meter (parse.py lines 84-85): pandas `max`/`min`
skip missing values, so the result is the maximum minus the minimum of
the non-missing readings, and missing when the group has no non-missing
reading for that meter. -/
def kwh_of (rows : List Row) (i : Fin 7) : Option ℚ :=
  let vs := rows.filterMap (fun r => r.vals i)
  match vs.max?, vs.min? with
  | some M, some m => some (M - m)
  | _, _ => none

/-- One row of the Summary Table: the bucket date, the 7 kWh columns and
the 7 dollar columns (in the fixed label order). -/
structure SummaryRow where
  key : Option ℤ
  kwh : Fin 7 → Option ℚ
  dollars : Fin 7 → Option ℚ

/-- The Summary Table built by `summarize` once past its guard
(parse.py lines 64-90): filter rows by time-of-day if both bounds are
given, replace 0 readings by missing, group by `group_key`, and per group
and meter take max minus min of the readings (`daily_energy`) and its
cost (`daily_dollars = daily_energy * cost`). -/
def summary_table (df : List Row) (cost : ℚ) (start_time end_time : Option Time) :
    List SummaryRow :=
  (group_dates (subset_df df start_time end_time) start_time end_time).map (fun d =>
    { key := d
      kwh := fun i => kwh_of (rows_of_date (subset_df df start_time end_time) start_time end_time d) i
      dollars := fun i =>
        (kwh_of (rows_of_date (subset_df df start_time end_time) start_time end_time d) i).map
          (fun q => q * cost) })

/-- `summarize` (parse.py lines 60-90).  The guard (lines 62-63) raises
`ValueError` when `end_time` is given without `start_time`, before any
grouping happens and before anything is produced; this is the `.error`
case.  The second component of the `.ok` result is the caller's frame
`df` after the call: every pandas step used (`.iloc`, column selection,
`.replace` with its default `inplace=False`, `.groupby`, `.max`, `.min`)
returns a new object, so the caller's frame is returned unchanged. -/
def summarize (df : List Row) (cost : ℚ) (start_time end_time : Option Time) :
    Except String (List SummaryRow × List Row) :=
  if end_time.isSome && start_time.isNone then
    Except.error "end_time should not be specified unless start_time is specified"
  else
    Except.ok (summary_table df cost start_time end_time, df)

/-! ## Spec-side recomputations used to state the claims -/

/-- The kWh value the spec prescribes for one bucket and meter, computed
from the bucket's raw (pre-replacement) readings: first replace every
reading equal to 0 by missing, then take max minus min of what remains,
or missing when nothing remains. -/
def spec_kwh (vals : List ℚ) : Option ℚ :=
  let nz := vals.filter (fun q => decide (q ≠ 0))
  match nz.max?, nz.min? with
  | some M, some m => some (M - m)
  | _, _ => none

/-- The raw (pre-replacement, post-filter) non-missing readings of one
bucket for one meter, recomputed from the input frame. -/
def raw_bucket_vals (df : List Row) (start_time end_time : Option Time) (d : Option ℤ)
    (i : Fin 7) : List ℚ :=
  ((filtered_df df start_time end_time).filter
    (fun r => group_key r.ts start_time end_time = d)).filterMap (fun r => r.vals i)

/-- The cleaned (post-replacement) readings of one bucket for one meter. -/
def clean_bucket_vals (df : List Row) (start_time end_time : Option Time) (d : Option ℤ)
    (i : Fin 7) : List ℚ :=
  (raw_bucket_vals df start_time end_time d i).filter (fun q => decide (q ≠ 0))

/-! ## Concrete inputs used by witnesses and counterexamples -/

/-- 06:00, as `_string_to_time` would produce for `"06:00"`. -/
def time06 : Time := ⟨6, 0, by decide, by decide⟩

/-- 08:00. -/
def time08 : Time := ⟨8, 0, by decide, by decide⟩

/-- 18:00. -/
def time18 : Time := ⟨18, 0, by decide, by decide⟩

/-- 22:00. -/
def time22 : Time := ⟨22, 0, by decide, by decide⟩

/-! ## Claim C7 -/

/-- Claim C7: for every Measurement Table and cost, calling `summarize`
with `end_time` supplied but `start_time` absent yields the fatal
configuration error immediately — no grouping happens and no summary is
produced (the result is `Except.error`, not `Except.ok`). -/
theorem C7_end_without_start_is_fatal (df : List Row) (cost : ℚ) (e : Time) :
    summarize df cost none (some e) =
      Except.error "end_time should not be specified unless start_time is specified" := rfl

/-! ## Claim C9 -/

/-- Claim C9: `summarize` leaves the caller's Measurement Table frame
unchanged — the second component of a successful result is the frame the
caller passed in, row for row and cell for cell. -/
theorem C9_df_unchanged (df : List Row) (cost : ℚ) (start_time end_time : Option Time)
    (sum : List SummaryRow) (rest : List Row)
    (h : summarize df cost start_time end_time = Except.ok (sum, rest)) : rest = df := by
  unfold summarize at h
  split at h
  · exact absurd h (by simp)
  · simp only [Except.ok.injEq, Prod.mk.injEq] at h
    exact h.2.symm

/-- Witness for C9 at a concrete call. -/
theorem C9_witness :
    ([(⟨0, fun _ => some 100⟩ : Row)] : List Row) = [⟨0, fun _ => some 100⟩] :=
  C9_df_unchanged [⟨0, fun _ => some 100⟩] 1 none none
    (summary_table [⟨0, fun _ => some 100⟩] 1 none none) [⟨0, fun _ => some 100⟩] rfl

/-! ## Claim C6 -/

/-- Claim C6: with only `start_time` supplied, the bucket key is the date
of (timestamp minus the start-of-day offset since midnight); hence a
timestamp whose time-of-day is strictly before `start_time` is associated
with the previous calendar day. -/
theorem C6_start_only_previous_day (t : ℤ) (s : Time) :
    group_key t (some s) none = some (dateOf (t - _timedelta_since_midnight s)) ∧
    (timeOfDay t < _timedelta_since_midnight s →
      group_key t (some s) none = some (dateOf t - 1)) := by
  refine ⟨rfl, fun h => ?_⟩
  have hh := s.hour_lt
  have hm := s.minute_lt
  show some (dateOf (t - _timedelta_since_midnight s)) = some (dateOf t - 1)
  have : dateOf (t - _timedelta_since_midnight s) = dateOf t - 1 := by
    unfold dateOf
    unfold timeOfDay at h
    unfold _timedelta_since_midnight at h ⊢
    omega
  rw [this]

/-- Witness for C6: 01:00 with start 06:00 lands on the previous day. -/
theorem C6_witness : group_key 3600 (some time06) none = some (dateOf 3600 - 1) :=
  (C6_start_only_previous_day 3600 time06).2 (by decide)

/-! ## Claim C3 -/

/-- Claim C3: with both times supplied, a daytime window
(start-offset < end-offset) buckets by the unshifted calendar date, and
otherwise the bucket key is the date of (timestamp minus the midpoint of
the two offsets); with start 22:00 and end 06:00 the timestamps
2020-01-02 23:30 (modelled as second 171000 of the epoch) and
2020-01-03 01:00 (second 176400) get the same bucket key. -/
theorem C3_both_times_bucketing :
    (∀ (t : ℤ) (s e : Time),
      (_timedelta_since_midnight s < _timedelta_since_midnight e →
        group_key t (some s) (some e) = some (dateOf t)) ∧
      (¬ _timedelta_since_midnight s < _timedelta_since_midnight e →
        group_key t (some s) (some e) =
          some (dateOf (t - (_timedelta_since_midnight s + _timedelta_since_midnight e) / 2)))) ∧
    group_key 171000 (some time22) (some time06) = group_key 176400 (some time22) (some time06) := by
  refine ⟨fun t s e => ⟨fun h => ?_, fun h => ?_⟩, by decide⟩
  · simp [group_key, if_pos h]
  · simp [group_key, if_neg h]

/-- Witness for C3: the night-window branch at a concrete timestamp. -/
theorem C3_witness :
    group_key 171000 (some time22) (some time06) =
      some (dateOf (171000 - (_timedelta_since_midnight time22 + _timedelta_since_midnight time06) / 2)) :=
  (C3_both_times_bucketing.1 171000 time22 time06).2 (by decide)

/-! ## Claim C1 -/

/-- Two raw records with the same (timestamp, variable) key; the later
record's value does not parse. -/
def dupRecords : List (String × String × String) :=
  [("01/02/2020 00:00", "V", "100"), ("01/02/2020 00:00", "V", "abc")]

/-- Counterexample to claim C1 as stated: with duplicate key records
`"100"` then `"abc"`, the retained value is `100` (the last record whose
value parsed), not the parsed value of the last record in file order
(which is the missing marker, since `"abc"` does not parse).
`GroupBy.last` skips nulls, so the later row does **not** override the
earlier one here. -/
theorem C1_counterexample :
    dedupValue dupRecords ("01/02/2020 00:00", "V") = some 100 ∧
    ((dupRecords.filter (matchKey ("01/02/2020 00:00", "V"))).getLast?.map
      (fun r => drop_units r.2.2)) = some none := by
  constructor
  · rfl
  · rfl

/-- Claim C1 (amended): among raw records sharing one
(timestamp, variable) key, the last record whose value parses to a
number wins; a record whose value parses to the missing marker never
overrides earlier records. -/
theorem C1_last_parsed_value_wins (records : List (String × String × String))
    (k : String × String) (r : String × String × String)
    (hk : matchKey k r = true) :
    (∀ q : ℚ, drop_units r.2.2 = some q → dedupValue (records ++ [r]) k = some q) ∧
    (drop_units r.2.2 = none → dedupValue (records ++ [r]) k = dedupValue records k) := by
  constructor
  · intro q hq
    unfold dedupValue
    rw [List.filter_append, List.filterMap_append]
    have h1 : List.filter (matchKey k) [r] = [r] := by simp [List.filter_cons, hk]
    have h2 : List.filterMap (fun x => drop_units x.2.2) [r] = [q] := by
      simp [List.filterMap_cons, hq]
    rw [h1, h2]
    exact List.getLast?_concat _
  · intro hq
    unfold dedupValue
    rw [List.filter_append, List.filterMap_append]
    have h1 : List.filter (matchKey k) [r] = [r] := by simp [List.filter_cons, hk]
    have h2 : List.filterMap (fun x => drop_units x.2.2) [r] = [] := by
      simp [List.filterMap_cons, hq]
    rw [h1, h2, List.append_nil]

/-- Witness for C1 (amended): appending a record whose value parses
overrides the earlier value for the key. -/
theorem C1_witness :
    dedupValue ([("t", "V", "1")] ++ [("t", "V", "2")]) ("t", "V") = some 2 :=
  (C1_last_parsed_value_wins [("t", "V", "1")] ("t", "V") ("t", "V", "2") (by decide)).1 2 rfl

/-! ## Claim C4 -/

/-- A measurement row whose time-of-day is exactly 18:00. -/
def rowAtEnd : Row := ⟨64800, fun _ => some 100⟩

/-- Counterexample to claim C4 as stated: with window 08:00-18:00, a row
whose time-of-day equals `end_time` (18:00) is **kept** by the filtering
step of `summarize` — `indexer_between_time` defaults to inclusive
endpoints — so the summary is built from that row (one bucket) instead of
being empty as the half-open reading `[start, end)` would demand. -/
theorem C4_counterexample :
    between_time time08 time18 (timeOfDay rowAtEnd.ts) = true ∧
    filtered_df [rowAtEnd] (some time08) (some time18) = [rowAtEnd] ∧
    Except.map (fun p => p.1.length) (summarize [rowAtEnd] 1 (some time08) (some time18)) =
      Except.ok 1 := by
  exact ⟨rfl, rfl, rfl⟩

/-- Claim C4 (amended): with both bounds supplied, `summarize` retains
exactly the rows whose time-of-day the inclusive `between_time` filter
selects: for start-offset ≤ end-offset this is the closed interval
`[start_time, end_time]` — a row at `start_time` is kept and a row at
`end_time` is kept as well — and for start-offset > end-offset it is the
wrap-around union (time-of-day ≥ start or ≤ end, both inclusive). -/
theorem C4_closed_interval_filter :
    (∀ (df : List Row) (s e : Time) (r : Row),
      r ∈ filtered_df df (some s) (some e) ↔
        r ∈ df ∧ between_time s e (timeOfDay r.ts) = true) ∧
    (∀ (s e : Time) (tod : ℤ),
      _timedelta_since_midnight s ≤ _timedelta_since_midnight e →
      (between_time s e tod = true ↔
        _timedelta_since_midnight s ≤ tod ∧ tod ≤ _timedelta_since_midnight e)) ∧
    (∀ (s e : Time) (tod : ℤ),
      ¬ _timedelta_since_midnight s ≤ _timedelta_since_midnight e →
      (between_time s e tod = true ↔
        _timedelta_since_midnight s ≤ tod ∨ tod ≤ _timedelta_since_midnight e)) := by
  refine ⟨fun df s e r => ?_, fun s e tod h => ?_, fun s e tod h => ?_⟩
  · simp [filtered_df, List.mem_filter]
  · simp [between_time, if_pos h]
  · simp [between_time, if_neg h]

/-- Witness for C4 (amended): the daytime-window branch at time-of-day
exactly 18:00, which the closed interval keeps. -/
theorem C4_witness :
    between_time time08 time18 64800 = true ↔
      _timedelta_since_midnight time08 ≤ 64800 ∧ 64800 ≤ _timedelta_since_midnight time18 :=
  C4_closed_interval_filter.2.1 time08 time18 64800 (by decide)

/-! ## Claims C2 and C10: shared lemmas relating `summarize` output to the
per-bucket recomputation from the input frame -/

lemma filterMap_replaceZero (m : List Row) (i : Fin 7) :
    m.filterMap (fun r => replaceZero (r.vals i)) =
      (m.filterMap (fun r => r.vals i)).filter (fun q => decide (q ≠ 0)) := by
  induction m with
  | nil => rfl
  | cons r m ih =>
    cases hv : r.vals i with
    | none =>
      simp only [List.filterMap_cons, hv, replaceZero]
      simpa [replaceZero] using ih
    | some q =>
      by_cases hq : q = 0
      · simp [List.filterMap_cons, hv, replaceZero, hq]
        simpa [replaceZero] using ih
      · simp [List.filterMap_cons, hv, replaceZero, hq, List.filter_cons]
        simpa [replaceZero] using ih

lemma rows_of_date_map_replaceZero (l : List Row) (start_time end_time : Option Time)
    (d : Option ℤ) :
    rows_of_date (l.map replaceZeroRow) start_time end_time d =
      (l.filter (fun r => group_key r.ts start_time end_time = d)).map replaceZeroRow := by
  unfold rows_of_date
  rw [List.filter_map]
  rfl

lemma kwh_of_map_replaceZero (m : List Row) (i : Fin 7) :
    kwh_of (m.map replaceZeroRow) i = spec_kwh (m.filterMap (fun r => r.vals i)) := by
  unfold kwh_of spec_kwh
  rw [List.filterMap_map]
  rw [show ((fun r : Row => r.vals i) ∘ replaceZeroRow) = fun r => replaceZero (r.vals i)
    from rfl]
  rw [filterMap_replaceZero]

lemma summarize_kwh_spec (df : List Row) (cost : ℚ) (start_time end_time : Option Time)
    (sum : List SummaryRow) (rest : List Row) (sr : SummaryRow)
    (h : summarize df cost start_time end_time = Except.ok (sum, rest)) (hm : sr ∈ sum)
    (i : Fin 7) :
    sr.kwh i = spec_kwh (raw_bucket_vals df start_time end_time sr.key i) ∧
    sr.dollars i =
      (spec_kwh (raw_bucket_vals df start_time end_time sr.key i)).map (fun q => q * cost) := by
  unfold summarize at h
  split at h
  · exact absurd h (by simp)
  · simp only [Except.ok.injEq, Prod.mk.injEq] at h
    obtain ⟨hsum, -⟩ := h
    rw [← hsum] at hm
    unfold summary_table at hm
    obtain ⟨d, hd, hsr⟩ := List.mem_map.mp hm
    subst hsr
    unfold subset_df
    simp only [rows_of_date_map_replaceZero, kwh_of_map_replaceZero]
    exact ⟨rfl, rfl⟩

/-! ## Claim C2 -/

/-- Claim C2: for every bucket (summary row) and meter, `summarize`
reports kWh computed by first replacing readings equal to exactly 0 with
missing and then taking max minus min of what remains in the bucket —
missing when nothing remains.  `spec_kwh` is that recipe applied to the
bucket's raw readings recomputed from the input frame. -/
theorem C2_bucket_kwh_max_minus_min (df : List Row) (cost : ℚ)
    (start_time end_time : Option Time) (sum : List SummaryRow) (rest : List Row)
    (sr : SummaryRow) (h : summarize df cost start_time end_time = Except.ok (sum, rest))
    (hm : sr ∈ sum) (i : Fin 7) :
    sr.kwh i = spec_kwh (raw_bucket_vals df start_time end_time sr.key i) :=
  (summarize_kwh_spec df cost start_time end_time sum rest sr h hm i).1

/-- The spec example for C2: one bucket with readings 100, 0, 150 on
every meter. -/
def exReadings : List Row :=
  [⟨0, fun _ => some 100⟩, ⟨60, fun _ => some 0⟩, ⟨120, fun _ => some 150⟩]

/-- The single summary row `summarize` produces from `exReadings`. -/
def exReadingsRow : SummaryRow :=
  { key := some 0
    kwh := fun i => kwh_of (rows_of_date (subset_df exReadings none none) none none (some 0)) i
    dollars := fun i =>
      (kwh_of (rows_of_date (subset_df exReadings none none) none none (some 0)) i).map
        (fun q => q * 1) }

/-- Witness for C2: on the bucket with readings [100, 0, 150] the
reported kWh equals the spec recipe's value, which is 150 - 100 = 50. -/
theorem C2_witness :
    exReadingsRow.kwh 0 = spec_kwh (raw_bucket_vals exReadings none none exReadingsRow.key 0) ∧
    spec_kwh (raw_bucket_vals exReadings none none (some 0) 0) = some 50 := by
  constructor
  · exact C2_bucket_kwh_max_minus_min exReadings 1 none none
      (summary_table exReadings 1 none none) exReadings exReadingsRow rfl
      (by rw [show summary_table exReadings 1 none none = [exReadingsRow] from rfl]
          exact List.mem_singleton.mpr rfl) 0
  · have h1 : spec_kwh (raw_bucket_vals exReadings none none (some 0) 0) =
        some ((150 : ℚ) - 100) := rfl
    rw [h1]
    norm_num

/-! ## Claim C10 -/

/-- Claim C10: when a bucket holds exactly one non-missing, non-zero
reading for a meter, `summarize` reports kWh = 0 and dollars = 0 for that
bucket and meter (max and min coincide), not a missing value. -/
theorem C10_single_reading_zero (df : List Row) (cost : ℚ)
    (start_time end_time : Option Time) (sum : List SummaryRow) (rest : List Row)
    (sr : SummaryRow) (h : summarize df cost start_time end_time = Except.ok (sum, rest))
    (hm : sr ∈ sum) (i : Fin 7) (q : ℚ)
    (hq : clean_bucket_vals df start_time end_time sr.key i = [q]) :
    sr.kwh i = some 0 ∧ sr.dollars i = some 0 := by
  obtain ⟨h1, h2⟩ := summarize_kwh_spec df cost start_time end_time sum rest sr h hm i
  unfold clean_bucket_vals at hq
  have hs : spec_kwh (raw_bucket_vals df start_time end_time sr.key i) = some 0 := by
    unfold spec_kwh
    rw [hq]
    simp [List.max?, List.min?]
  rw [hs] at h1 h2
  refine ⟨h1, ?_⟩
  rw [h2]
  simp

/-- One bucket with a single non-missing reading on every meter. -/
def exSingle : List Row := [⟨0, fun _ => some 100⟩]

/-- The single summary row `summarize` produces from `exSingle`. -/
def exSingleRow : SummaryRow :=
  { key := some 0
    kwh := fun i => kwh_of (rows_of_date (subset_df exSingle none none) none none (some 0)) i
    dollars := fun i =>
      (kwh_of (rows_of_date (subset_df exSingle none none) none none (some 0)) i).map
        (fun q => q * 1) }

/-- Witness for C10: a bucket with the single reading 100 reports
kWh = 0 and dollars = 0. -/
theorem C10_witness : exSingleRow.kwh 0 = some 0 ∧ exSingleRow.dollars 0 = some 0 :=
  C10_single_reading_zero exSingle 1 none none (summary_table exSingle 1 none none)
    exSingle exSingleRow rfl
    (by rw [show summary_table exSingle 1 none none = [exSingleRow] from rfl]
        exact List.mem_singleton.mpr rfl) 0 100 rfl

/-! ## Claim C5 -/

lemma listLE_total : ∀ a b : List Char, listLE a b = true ∨ listLE b a = true := by
  intro a
  induction a with
  | nil => intro b; left; rfl
  | cons x as ih =>
    intro b
    cases b with
    | nil => right; rfl
    | cons y bs =>
      by_cases h1 : x.toNat < y.toNat
      · left; simp [listLE, h1]
      · by_cases h2 : y.toNat < x.toNat
        · right; simp [listLE, h2]
        · rcases ih bs with h | h
          · left; simp [listLE, h1, h2, h]
          · right; simp [listLE, h1, h2, h]

lemma listLE_trans : ∀ a b c : List Char,
    listLE a b = true → listLE b c = true → listLE a c = true := by
  intro a
  induction a with
  | nil => intro b c _ _; rfl
  | cons x as ih =>
    intro b c hab hbc
    cases b with
    | nil => simp [listLE] at hab
    | cons y bs =>
      cases c with
      | nil => simp [listLE] at hbc
      | cons z cs =>
        simp only [listLE] at hab hbc ⊢
        split_ifs at hab hbc ⊢ <;>
          first
            | rfl
            | exact Bool.noConfusion hab
            | exact Bool.noConfusion hbc
            | exact ih bs cs hab hbc
            | omega

instance : IsTotal String (fun a b => strLE a b = true) :=
  ⟨fun a b => listLE_total a.toList b.toList⟩

instance : IsTrans String (fun a b => strLE a b = true) :=
  ⟨fun a b c => listLE_trans a.toList b.toList c.toList⟩

/-- Claim C5 (amended): the `parse` index is built dayfirst
(`"03/04/2020 10:00"` is 3 April 2020, not 4 March), and its rows come
out in ascending **lexicographic order of the original timestamp
strings** (the order the sorting `groupby` leaves them in), which is not
in general ascending timestamp order. -/
theorem C5_dayfirst_and_string_order :
    parseTimestamp "03/04/2020 10:00" = some ⟨2020, 4, 3, 10, 0⟩ ∧
    ∀ tss : List String,
      List.Sorted (fun a b => strLE a b = true) (sortStrings tss.dedup) := by
  constructor
  · rfl
  · intro tss
    exact List.sorted_insertionSort _ _

/-- Two timestamp strings whose lexicographic order disagrees with their
chronological order: `"01/02/2020"` is 1 February (dayfirst) and
`"02/01/2020"` is 2 January. -/
def misorderedIndex : List String := ["02/01/2020 00:00", "01/02/2020 00:00"]

/-- Counterexample to claim C5 as stated: the rows of the table built
from `misorderedIndex` come out as 1 February 2020 followed by
2 January 2020 — not ascending timestamp order (the index was sorted as
strings before the dayfirst conversion, and never re-sorted after). -/
theorem C5_counterexample :
    parseIndex misorderedIndex = [⟨2020, 2, 1, 0, 0⟩, ⟨2020, 1, 2, 0, 0⟩] ∧
    ¬ List.Sorted (fun a b => dtKey a ≤ dtKey b) (parseIndex misorderedIndex) := by
  refine ⟨rfl, fun h => ?_⟩
  rw [show parseIndex misorderedIndex = [⟨2020, 2, 1, 0, 0⟩, ⟨2020, 1, 2, 0, 0⟩] from rfl] at h
  have h2 := (List.pairwise_cons.mp h).1 _ (List.mem_singleton.mpr rfl)
  exact absurd h2 (by decide)

/-! ## Claim C8: lemmas about the regex scanner -/

lemma takeWhile_all_self {p : Char → Bool} (l : List Char) :
    (l.takeWhile p).all p = true := by
  induction l with
  | nil => rfl
  | cons c l ih =>
    by_cases hc : p c = true
    · simp [List.takeWhile_cons, hc, ih]
    · simp [List.takeWhile_cons, hc]

lemma takeWhile_append_of_all {p : Char → Bool} {a : List Char} (x : List Char)
    (h : a.all p = true) : (a ++ x).takeWhile p = a ++ x.takeWhile p := by
  induction a with
  | nil => rfl
  | cons c a ih =>
    simp only [List.all_cons, Bool.and_eq_true] at h
    simp [List.takeWhile_cons, h.1, ih h.2]

lemma dropWhile_append_of_all {p : Char → Bool} {a : List Char} (x : List Char)
    (h : a.all p = true) : (a ++ x).dropWhile p = x.dropWhile p := by
  induction a with
  | nil => rfl
  | cons c a ih =>
    simp only [List.all_cons, Bool.and_eq_true] at h
    simp [List.dropWhile_cons, h.1, ih h.2]

lemma takeWhile_eq_nil_of_head {p : Char → Bool} {x : List Char}
    (h : ∀ c, x.head? = some c → p c = false) :
    x.takeWhile p = [] ∧ x.dropWhile p = x := by
  cases x with
  | nil => exact ⟨rfl, rfl⟩
  | cons c l =>
    have hc := h c rfl
    constructor
    · rw [List.takeWhile_cons, if_neg (by simp [hc])]
    · rw [List.dropWhile_cons, if_neg (by simp [hc])]

lemma tail_head_not_digit {t : List Char} (ht : TailLang t) (c : Char)
    (hc : t.head? = some c) : isDigitChar c = false ∧ c ≠ '.' := by
  rcases ht with h | ⟨r, rfl, hr⟩
  · cases t with
    | nil => exact absurd hc (by simp)
    | cons a r =>
      simp only [List.head?_cons, Option.some.injEq] at hc
      subst hc
      simp only [List.all_cons, Bool.and_eq_true] at h
      obtain ⟨h1, -⟩ := h
      constructor
      · simp only [isAlphaChar, decide_eq_true_eq] at h1
        simp only [isDigitChar, decide_eq_false_iff_not]
        omega
      · intro he
        subst he
        exact absurd h1 (by decide)
  · simp only [List.head?_cons, Option.some.injEq] at hc
    subst hc
    exact ⟨by decide, by decide⟩

lemma unitsTail_iff (t : List Char) : unitsTail t = true ↔ TailLang t := by
  cases t with
  | nil =>
    constructor
    · intro _
      exact Or.inl rfl
    · intro _
      rfl
  | cons c r =>
    by_cases hc : c = ' '
    · subst hc
      show (r.all isAlphaChar = true) ↔ TailLang (' ' :: r)
      constructor
      · intro h
        exact Or.inr ⟨r, rfl, h⟩
      · rintro (h | ⟨r2, he, hr⟩)
        · simp only [List.all_cons, Bool.and_eq_true] at h
          exact absurd h.1 (by decide)
        · injection he with h1 h2
          subst h2
          exact hr
    · have hu : unitsTail (c :: r) = (c :: r).all isAlphaChar := by
        simp [unitsTail, hc]
      rw [hu]
      constructor
      · intro h
        exact Or.inl h
      · rintro (h | ⟨r2, he, hr⟩)
        · exact h
        · injection he with h1 h2
          exact absurd h1 hc

lemma drop_units_isSome_iff (s : String) :
    (drop_units s).isSome = true ↔ UnitsLang s.toList := by
  constructor
  · intro h
    simp only [drop_units] at h
    cases hdp : s.toList.dropWhile isDigitChar with
    | nil =>
      simp only [hdp] at h
      by_cases hip : s.toList.takeWhile isDigitChar = []
      · rw [if_pos hip] at h
        exact absurd h (by simp)
      · refine ⟨s.toList.takeWhile isDigitChar, [], ?_, Or.inl ⟨hip, takeWhile_all_self _⟩,
          Or.inl rfl⟩
        have hsp := List.takeWhile_append_dropWhile isDigitChar s.toList
        rw [hdp] at hsp
        rw [List.append_nil]
        rw [List.append_nil] at hsp
        exact hsp.symm
    | cons c r2 =>
      simp only [hdp] at h
      by_cases hcdot : c = '.'
      · subst hcdot
        rw [if_pos rfl] at h
        by_cases hfp : r2.takeWhile isDigitChar = []
        · rw [if_pos hfp] at h
          exact absurd h (by simp)
        · rw [if_neg hfp] at h
          by_cases hut : unitsTail (r2.dropWhile isDigitChar) = true
          · refine ⟨s.toList.takeWhile isDigitChar ++ '.' :: r2.takeWhile isDigitChar,
              r2.dropWhile isDigitChar, ?_,
              Or.inr ⟨_, _, rfl, takeWhile_all_self _, hfp, takeWhile_all_self _⟩,
              (unitsTail_iff _).mp hut⟩
            calc s.toList
                = s.toList.takeWhile isDigitChar ++ s.toList.dropWhile isDigitChar :=
                  (List.takeWhile_append_dropWhile _ _).symm
              _ = s.toList.takeWhile isDigitChar ++ ('.' :: r2) := by rw [hdp]
              _ = s.toList.takeWhile isDigitChar ++
                    ('.' :: (r2.takeWhile isDigitChar ++ r2.dropWhile isDigitChar)) := by
                  rw [List.takeWhile_append_dropWhile]
              _ = (s.toList.takeWhile isDigitChar ++ '.' :: r2.takeWhile isDigitChar) ++
                    r2.dropWhile isDigitChar := by simp [List.append_assoc]
          · rw [if_neg hut] at h
            exact absurd h (by simp)
      · rw [if_neg hcdot] at h
        by_cases hip : s.toList.takeWhile isDigitChar = []
        · rw [if_pos hip] at h
          exact absurd h (by simp)
        · rw [if_neg hip] at h
          by_cases hut : unitsTail (c :: r2) = true
          · refine ⟨s.toList.takeWhile isDigitChar, c :: r2, ?_,
              Or.inl ⟨hip, takeWhile_all_self _⟩, (unitsTail_iff _).mp hut⟩
            rw [← hdp]
            exact (List.takeWhile_append_dropWhile _ _).symm
          · rw [if_neg hut] at h
            exact absurd h (by simp)
  · rintro ⟨n, t, hcs, hn, ht⟩
    have htw : t.takeWhile isDigitChar = [] ∧ t.dropWhile isDigitChar = t :=
      takeWhile_eq_nil_of_head (fun c hc => (tail_head_not_digit ht c hc).1)
    have hut : unitsTail t = true := (unitsTail_iff t).mpr ht
    rcases hn with ⟨hne, hall⟩ | ⟨a, b, hnab, ha, hbne, hb⟩
    · have h1 : s.toList.takeWhile isDigitChar = n := by
        rw [hcs, takeWhile_append_of_all t hall, htw.1, List.append_nil]
      have h2 : s.toList.dropWhile isDigitChar = t := by
        rw [hcs, dropWhile_append_of_all t hall, htw.2]
      simp only [drop_units]
      cases ht2 : t with
      | nil =>
        rw [ht2] at h2
        simp only [h2, h1]
        rw [if_neg hne, if_pos (show unitsTail [] = true from rfl)]
        rfl
      | cons c r =>
        have hcd : c ≠ '.' := by
          refine (tail_head_not_digit ht c ?_).2
          rw [ht2]
          rfl
        rw [ht2] at h2 hut
        simp only [h2, h1]
        rw [if_neg hcd, if_neg hne, if_pos hut]
        rfl
    · have h0 : s.toList = a ++ '.' :: (b ++ t) := by
        rw [hcs, hnab]
        simp [List.append_assoc]
      have h1 : s.toList.takeWhile isDigitChar = a := by
        rw [h0, takeWhile_append_of_all _ ha, List.takeWhile_cons, if_neg (by decide),
          List.append_nil]
      have h2 : s.toList.dropWhile isDigitChar = '.' :: (b ++ t) := by
        rw [h0, dropWhile_append_of_all _ ha, List.dropWhile_cons, if_neg (by decide)]
      have h3 : (b ++ t).takeWhile isDigitChar = b := by
        rw [takeWhile_append_of_all t hb, htw.1, List.append_nil]
      have h4 : (b ++ t).dropWhile isDigitChar = t := by
        rw [dropWhile_append_of_all t hb, htw.2]
      simp only [drop_units, h2, if_true]
      rw [h3, h4, if_neg hbne, if_pos hut]
      rfl

/-- Claim C8: `drop_units` returns the numeric value exactly when its
input lies in the language of `\A(\d*\.?\d+) ?[a-zA-Z]*\Z` (optional
leading digits, optional decimal point, at least one digit, optional
space, optional unit letters) and the missing marker otherwise, never
raising — the Lean model is total by construction, and the examples
`"309.2 kWh"`, `"12"`, `"abc"` and `""` behave as specified. -/
theorem C8_value_normalizer :
    (∀ s : String, (drop_units s).isSome = true ↔ UnitsLang s.toList) ∧
    drop_units "309.2 kWh" = some (1546 / 5) ∧
    drop_units "12" = some 12 ∧
    drop_units "abc" = none ∧
    drop_units "" = none := by
  refine ⟨drop_units_isSome_iff, ?_, rfl, rfl, rfl⟩
  have h : drop_units "309.2 kWh" =
      some (((309 : ℕ) : ℚ) + ((2 : ℕ) : ℚ) / (10 : ℚ) ^ 1) := rfl
  rw [h]
  norm_num
